import Mathlib

/-!
Shallow embedding of `src/run_experiment.py` from Project-BayesDAG:
the sweep-expansion function `split_configs` and the orchestration
function `run_experiment` (directory creation with retry, tag recording,
config expansion, per-config dispatch, pipeline step registration,
aggregation, trigger and cleanup), together with proofs of the spec's
testable properties about them.
-/

namespace BayesDAG

/-- A Python value as it appears in the config dictionaries: scalars or a
list of candidate values (the sweepable form, `isinstance(item, list)`). -/
inductive Value where
  | int : Int → Value
  | str : String → Value
  | bool : Bool → Value
  | vlist : List Value → Value

/-- A Python dict, modelled as an insertion-ordered association list.
Python guarantees the keys are pairwise distinct; theorems that need this
take it as a `Nodup` hypothesis. -/
abbrev Dict := List (String × Value)

/-- First-match lookup: `d[k]` returning `none` on `KeyError`. -/
def dictGet (d : Dict) (k : String) : Option Value :=
  (d.find? (fun p => p.1 = k)).map (·.2)

/-- Python `d[k] = v`: replace in place if the key is present (position
preserved), otherwise append at the end. -/
def dictSet (d : Dict) (k : String) (v : Value) : Dict :=
  if d.any (fun p => p.1 = k) then
    d.map (fun p => if p.1 = k then (k, v) else p)
  else
    d ++ [(k, v)]

/-- The list-valued entries of `model_config`, in encounter order: the
zipped `split_keys` / `product_items` of `split_configs` (lines 40-46). -/
def sweepPairs (mc : Dict) : List (String × List Value) :=
  mc.filterMap (fun p =>
    match p.2 with
    | .vlist l => some (p.1, l)
    | _ => none)

/-- `itertools.product` over a list of candidate lists: the first list
varies slowest, exactly as in `product(*product_items)` (line 48). -/
def prodLists : List (List Value) → List (List Value)
  | [] => [[]]
  | l :: ls => l.flatMap (fun x => (prodLists ls).map (fun xs => x :: xs))

/-- The loop body's assignments `new_model_config[key] = item` over
`zip(split_keys, items)` (lines 50-51), starting from the copy. -/
def assignAll (d : Dict) (kvs : List (String × Value)) : Dict :=
  kvs.foldl (fun acc kv => dictSet acc kv.1 kv.2) d

/-- `split_configs(model_config, dataset_config)` (lines 37-53): collect
the list-valued fields, take the Cartesian product of their candidate
lists, and for each product tuple return a copy of `model_config` with the
swept keys overwritten, paired with `dataset_config` unchanged. -/
def split_configs (model_config dataset_config : Dict) :
    List (Dict × Dict) :=
  let split_keys := (sweepPairs model_config).map (·.1)
  let product_items := (sweepPairs model_config).map (·.2)
  (prodLists product_items).map (fun items =>
    (assignAll model_config (split_keys.zip items), dataset_config))

/-- Base-10 digits of `n`, least significant first, with explicit fuel
(`fuel ≥ n` suffices) so the function computes by kernel reduction. -/
def digitsRev (fuel n : Nat) : List Nat :=
  match fuel with
  | 0 => []
  | fuel + 1 => if n = 0 then [] else n % 10 :: digitsRev fuel (n / 10)

/-- Decimal digits of `n`, most significant first, as Python's `str`
renders a nonnegative integer inside an f-string. -/
def natToString (n : Nat) : String :=
  if n = 0 then "0"
  else ((digitsRev n n).reverse.map Nat.digitChar).asString

/-! ## Heap model of `split_configs`

Python dicts are mutable heap objects; `new_model_config = model_config.copy()`
allocates a fresh object and `new_model_config[key] = item` mutates it in
place. To state the frame property (the inputs are not mutated) we re-run
the same code over an explicit object store, with configs passed by
reference. -/

/-- The heap: object ids are indices into `objs`. -/
structure Store where
  objs : List Dict

/-- Dereference an object id (a dangling id reads as the empty dict). -/
def Store.read (s : Store) (r : Nat) : Dict :=
  (s.objs.get? r).getD []

/-- `d.copy()`: allocate a fresh object at the next free id. -/
def Store.alloc (s : Store) (d : Dict) : Store :=
  ⟨s.objs ++ [d]⟩

/-- Overwrite the object at id `r`. -/
def Store.write (s : Store) (r : Nat) (d : Dict) : Store :=
  ⟨s.objs.set r d⟩

/-- `obj[k] = v`, mutating the object at id `r` in place. -/
def Store.setItem (s : Store) (r : Nat) (k : String) (v : Value) : Store :=
  s.write r (dictSet (s.read r) k v)

/-- The assignment loop of lines 50-51 run against the store, mutating the
fresh copy at id `r`. -/
def assignAllH (s : Store) (r : Nat) (kvs : List (String × Value)) : Store :=
  kvs.foldl (fun st kv => st.setItem r kv.1 kv.2) s

/-- `split_configs` over the store: `mcRef`/`dcRef` are the ids of the
input `model_config`/`dataset_config` objects; each iteration copies the
model config into a fresh object, overwrites the swept keys there, and
pairs its id with `dcRef`. Returns the final heap and the result list. -/
def split_configs_heap (s : Store) (mcRef dcRef : Nat) :
    Store × List (Nat × Nat) :=
  let split_keys := (sweepPairs (s.read mcRef)).map (·.1)
  let product_items := (sweepPairs (s.read mcRef)).map (·.2)
  (prodLists product_items).foldl
    (fun acc items =>
      let newRef := acc.1.objs.length
      let s1 := acc.1.alloc (acc.1.read mcRef)
      let s2 := assignAllH s1 newRef (split_keys.zip items)
      (s2, acc.2 ++ [(newRef, dcRef)]))
    (s, [])

/-! ## Embedding of `run_experiment` (lines 56-230)

The embedding starts after `get_configs` and the scalar overrides, with
the resolved `model_config`, `train_hypers`, `dataset_config` as inputs.
External collaborators (`create_models_dir`, `mlflow.set_tags`, the
`aml_step` descriptor writer, `os.scandir`) are modelled by an `Env` of
oracles giving each call's outcome, and the function returns a `Trace`
recording every externally visible action in order. -/

/-- An element of a pipeline step's `arguments` list: a string literal or
a step-output reference object (`train_step_outputs` entries). -/
inductive Arg where
  | lit : String → Arg
  | out : Nat → Arg
deriving DecidableEq

/-- A run step registered by `pipeline.add_step` (lines 195-200). -/
structure RunStep where
  script_name : String
  arguments : List Arg
  step_name : String
  output_dir : String
deriving DecidableEq

/-- The aggregation step registered by `pipeline.add_step` (lines 217-222). -/
structure AggStep where
  script_name : String
  arguments : List Arg
  inputs : List Nat
  step_name : String
deriving DecidableEq

/-- A step in the pipeline's accumulating graph, in registration order. -/
inductive PStep where
  | runStep : RunStep → PStep
  | aggStep : AggStep → PStep
deriving DecidableEq

/-- The per-run argument bundle (`kwargs_dict`, lines 156-186), restricted
to the fields this orchestration layer computes or varies per run; the
remaining entries are scalar flags copied verbatim from the function's own
parameters into every bundle. -/
structure Bundle where
  dataset_name : String
  model_type : String
  dataset_config : Dict
  dataset_seed : Value
  model_config : Dict
  train_hypers : Dict
  output_dir : String
  experiment_name : String
  model_seed : Value

/-- The keyword arguments of the aggregation invocation (lines 208-213). -/
structure AggKwargs where
  input_dirs : List String
  output_dir : String
  experiment_name : String
deriving DecidableEq

/-- A Python exception surfacing from the orchestration code. -/
inductive PyErr where
  | fileExistsError
  | mlflowError
  | keyError
deriving DecidableEq

/-- Oracles for the external collaborators. `createDir k` is the outcome
of the k-th `create_models_dir` call; `setTagsOk k` whether the k-th
`mlflow.set_tags` call succeeds; `kwargsFile k` the descriptor file path
returned by the k-th `aml_step` dispatch; `scanDirs` the subdirectory
paths `os.scandir(models_dir)` finds at line 206. -/
structure Env where
  createDir : Nat → Except Unit String
  setTagsOk : Nat → Bool
  kwargsFile : Nat → String
  scanDirs : List String
  pipelineMode : Bool
  deleteKwargsFiles : Bool

/-- The experiment-level inputs after config resolution. -/
structure Inputs where
  dataset_name : String
  model_type : String
  name : Option String
  model_config : Dict
  train_hypers : Dict
  dataset_config : Dict

/-- Everything `run_experiment` did, in order: `create_calls` and `sleeps`
from the directory-creation retry; the dispatched bundles and collected
descriptor files; the pipeline's step graph and output references;
the aggregation kwargs; the number of `pipeline.run` calls; the files
removed during cleanup; and the returned value or raised exception. -/
structure Trace where
  create_calls : Nat := 0
  sleeps : Nat := 0
  models_dir : Option String := none
  num_samples_tag : Option Nat := none
  bundles : List Bundle := []
  kwargs_files : List String := []
  pipeline_steps : List PStep := []
  train_step_outputs : List Nat := []
  agg_kwargs : Option AggKwargs := none
  run_calls : Nat := 0
  deleted : List String := []
  result : Except PyErr String

/-- The state accumulated by the dispatch loop of lines 155-201. -/
structure LoopAcc where
  bundles : List Bundle
  kwargs_files : List String
  pipeline_steps : List PStep
  train_step_outputs : List Nat

/-- One iteration of the dispatch loop: build `kwargs_dict` (raising
`KeyError` if a `random_seed` lookup fails), dispatch via `aml_step`
collecting the descriptor file, and in pipeline mode register a run step
with `output_dir = f"outputs{len(train_step_outputs)}"` and append its
output reference. -/
def dispatchStep (env : Env) (inp : Inputs) (models_dir experiment_name : String)
    (acc : LoopAcc) (mc dc : Dict) : Except PyErr LoopAcc :=
  match dictGet dc "random_seed" with
  | none => .error .keyError
  | some dseed =>
    match dictGet mc "random_seed" with
    | none => .error .keyError
    | some mseed =>
      let b : Bundle :=
        { dataset_name := inp.dataset_name
          model_type := inp.model_type
          dataset_config := dc
          dataset_seed := dseed
          model_config := mc
          train_hypers := inp.train_hypers
          output_dir := models_dir
          experiment_name := experiment_name
          model_seed := mseed }
      let kf := env.kwargsFile acc.kwargs_files.length
      let acc1 : LoopAcc :=
        { acc with
          bundles := acc.bundles ++ [b]
          kwargs_files := acc.kwargs_files ++ [kf] }
      if env.pipelineMode then
        let step : RunStep :=
          { script_name := "run_experiment_step.py"
            arguments := [.lit "--step", .lit "single_seed_experiment",
                          .lit "--kwargs", .lit kf]
            step_name := experiment_name
            output_dir := "outputs" ++ natToString acc.train_step_outputs.length }
        .ok { acc1 with
              pipeline_steps := acc1.pipeline_steps ++ [.runStep step]
              train_step_outputs :=
                acc1.train_step_outputs ++ [acc.train_step_outputs.length] }
      else
        .ok acc1

/-- The dispatch loop over the expanded configs; an exception aborts the
remaining iterations, keeping what was already dispatched. -/
def dispatchLoop (env : Env) (inp : Inputs) (models_dir experiment_name : String) :
    List (Dict × Dict) → LoopAcc → LoopAcc × Option PyErr
  | [], acc => (acc, none)
  | (mc, dc) :: rest, acc =>
    match dispatchStep env inp models_dir experiment_name acc mc dc with
    | .error e => (acc, some e)
    | .ok acc2 => dispatchLoop env inp models_dir experiment_name rest acc2

/-- `experiment_name` (line 123): `f"{dataset_name}.{model_type}"` unless
a `name` was given. -/
def expName (inp : Inputs) : String :=
  match inp.name with
  | none => inp.dataset_name ++ "." ++ inp.model_type
  | some n => n

/-- Lines 123-230, after the output directory exists: compute the
experiment name, record the tags (an unguarded `mlflow.set_tags` call),
expand the sweep, record `num_samples`, run the dispatch loop, scan the
output directory for `input_dirs`, dispatch the aggregation invocation,
and in pipeline mode register the aggregation step (inputs =
`train_step_outputs`), trigger `pipeline.run` once and delete the
descriptor files. -/
def runWithDir (env : Env) (inp : Inputs) (md : String) (calls sleeps : Nat) :
    Trace :=
  let experiment_name := expName inp
  if env.setTagsOk 0 then
    let configs := split_configs inp.model_config inp.dataset_config
    if env.setTagsOk 1 then
      match dispatchLoop env inp md experiment_name configs ⟨[], [], [], []⟩ with
      | (acc, some e) =>
        { create_calls := calls, sleeps := sleeps, models_dir := some md
          num_samples_tag := some configs.length
          bundles := acc.bundles, kwargs_files := acc.kwargs_files
          pipeline_steps := acc.pipeline_steps
          train_step_outputs := acc.train_step_outputs
          result := .error e }
      | (acc, none) =>
        let aggK : AggKwargs :=
          { input_dirs := env.scanDirs
            output_dir := md
            experiment_name := experiment_name }
        let kf := env.kwargsFile acc.kwargs_files.length
        let kfs := acc.kwargs_files ++ [kf]
        if env.pipelineMode then
          let agg : AggStep :=
            { script_name := "run_experiment_step.py"
              arguments := [.lit "--step", .lit "aggregation", .lit "--kwargs",
                            .lit kf, .lit "--input_dirs"]
                           ++ acc.train_step_outputs.map .out
              inputs := acc.train_step_outputs
              step_name := experiment_name }
          { create_calls := calls, sleeps := sleeps, models_dir := some md
            num_samples_tag := some configs.length
            bundles := acc.bundles, kwargs_files := kfs
            pipeline_steps := acc.pipeline_steps ++ [.aggStep agg]
            train_step_outputs := acc.train_step_outputs
            agg_kwargs := some aggK
            run_calls := 1
            deleted := if env.deleteKwargsFiles then kfs else []
            result := .ok md }
        else
          { create_calls := calls, sleeps := sleeps, models_dir := some md
            num_samples_tag := some configs.length
            bundles := acc.bundles, kwargs_files := kfs
            pipeline_steps := acc.pipeline_steps
            train_step_outputs := acc.train_step_outputs
            agg_kwargs := some aggK
            result := .ok md }
    else
      { create_calls := calls, sleeps := sleeps, models_dir := some md
        num_samples_tag := none, result := .error .mlflowError }
  else
    { create_calls := calls, sleeps := sleeps, models_dir := some md
      result := .error .mlflowError }

/-- `run_experiment`: the directory-creation retry of lines 117-122 (one
retry after a 1-second sleep on `FileExistsError`, a second failure
propagates), then the rest of the function. -/
def run_experiment (env : Env) (inp : Inputs) : Trace :=
  match env.createDir 0 with
  | .ok md => runWithDir env inp md 1 0
  | .error _ =>
    match env.createDir 1 with
    | .ok md => runWithDir env inp md 2 1
    | .error _ =>
      { create_calls := 2, sleeps := 1, result := .error .fileExistsError }

/-- The output-directory names of the run steps registered in a trace's
pipeline, in registration order. -/
def runOutputDirs (t : Trace) : List String :=
  t.pipeline_steps.filterMap (fun st =>
    match st with
    | .runStep r => some r.output_dir
    | .aggStep _ => none)

/-! ## Concrete fixtures used by the witnesses -/

/-- A pipeline-mode environment whose collaborators all succeed. -/
def envW : Env :=
  { createDir := fun _ => .ok "runs/exp"
    setTagsOk := fun _ => true
    kwargsFile := fun k => "kwargs" ++ natToString k
    scanDirs := []
    pipelineMode := true
    deleteKwargsFiles := true }

/-- `envW` with a failing tag-recording sink. -/
def envT : Env :=
  { envW with setTagsOk := fun _ => false }

/-- `envW` where the output-directory scan finds a stale subdirectory. -/
def envS : Env :=
  { envW with scanDirs := ["runs/exp/stale"] }

/-- `envW` whose first directory creation collides and whose retry
succeeds. -/
def envR : Env :=
  { envW with createDir := fun k => if k = 0 then .error () else .ok "runs/exp2" }

/-- `envW` where both directory-creation attempts collide. -/
def envF : Env :=
  { envW with createDir := fun _ => .error () }

/-- A sweep input: `lr` carries two candidate values. -/
def inpW : Inputs :=
  { dataset_name := "boston"
    model_type := "pvae"
    name := none
    model_config := [("random_seed", .int 0), ("lr", .vlist [.int 1, .int 2])]
    train_hypers := [("learning_rate", .int 3)]
    dataset_config := [("random_seed", .int 7)] }

/-- `inpW` with three candidate values for `lr`. -/
def inp3 : Inputs :=
  { inpW with
    model_config := [("random_seed", .int 0),
                     ("lr", .vlist [.int 1, .int 2, .int 5])] }

/-- `inpW` with an empty candidate list (degenerate sweep). -/
def inpE : Inputs :=
  { inpW with model_config := [("random_seed", .int 0), ("lr", .vlist [])] }

/-- `inpW` with no list-valued field at all. -/
def inpZ : Inputs :=
  { inpW with model_config := [("random_seed", .int 0), ("lr", .int 1)] }

/-- The single bundle dispatched for `inpZ` under `envW`. -/
def bW : Bundle :=
  { dataset_name := "boston"
    model_type := "pvae"
    dataset_config := [("random_seed", .int 7)]
    dataset_seed := .int 7
    model_config := [("random_seed", .int 0), ("lr", .int 1)]
    train_hypers := [("learning_rate", .int 3)]
    output_dir := "runs/exp"
    experiment_name := "boston.pvae"
    model_seed := .int 0 }

/-- A two-object heap: the model config (id 0) and the dataset config
(id 1). -/
def storeW : Store :=
  ⟨[[("lr", .vlist [.int 1, .int 2]), ("random_seed", .int 0)],
    [("random_seed", .int 7)]]⟩

/-! ## Lemmas about the Cartesian product -/

theorem prodLists_length (ls : List (List Value)) :
    (prodLists ls).length = (ls.map List.length).prod := by
  induction ls with
  | nil => simp [prodLists]
  | cons l ls ih =>
    simp only [prodLists, List.length_flatMap, Function.comp_def, List.length_map,
      List.map_cons, List.prod_cons, ih, List.map_const', List.sum_const_nat]

theorem mem_prodLists {ls : List (List Value)} {vs : List Value} :
    vs ∈ prodLists ls ↔ List.Forall₂ (fun v l => v ∈ l) vs ls := by
  induction ls generalizing vs with
  | nil =>
    simp only [prodLists, List.mem_singleton]
    constructor
    · rintro rfl; exact List.Forall₂.nil
    · intro h; cases h; rfl
  | cons l ls ih =>
    simp only [prodLists, List.mem_flatMap, List.mem_map]
    constructor
    · rintro ⟨x, hx, xs, hxs, rfl⟩
      exact List.Forall₂.cons hx (ih.mp hxs)
    · intro h
      cases h with
      | cons hv hvs => exact ⟨_, hv, _, ih.mpr hvs, rfl⟩

theorem prodLists_eq_nil {ls : List (List Value)} (h : [] ∈ ls) :
    prodLists ls = [] := by
  induction ls with
  | nil => cases h
  | cons l ls ih =>
    rcases List.mem_cons.mp h with h1 | h2
    · simp [prodLists, ← h1]
    · simp [prodLists, ih h2]

theorem nodup_prodLists {ls : List (List Value)} (h : ∀ l ∈ ls, l.Nodup) :
    (prodLists ls).Nodup := by
  induction ls with
  | nil => simp [prodLists]
  | cons l ls ih =>
    simp only [prodLists]
    rw [List.nodup_flatMap]
    refine ⟨fun x _ => ?_, ?_⟩
    · exact (ih (fun m hm => h m (List.mem_cons_of_mem l hm))).map
        (fun a b hab => by injection hab)
    · have hl : l.Nodup := h l (List.mem_cons_self l ls)
      refine hl.imp ?_
      intro a b hab
      rw [Function.onFun, List.disjoint_left]
      rintro zs hza hzb
      rcases List.mem_map.mp hza with ⟨xs, _, rfl⟩
      rcases List.mem_map.mp hzb with ⟨ys, _, h2⟩
      exact hab (by injection h2.symm)

/-! ## Lemmas about the dict operations -/

theorem dictGet_cons (p : String × Value) (d : Dict) (k : String) :
    dictGet (p :: d) k = if p.1 = k then some p.2 else dictGet d k := by
  by_cases hp : p.1 = k <;> simp [dictGet, List.find?, hp]

theorem dictGet_map_replace_self (d : Dict) (k : String) (v : Value)
    (h : d.any (fun p => p.1 = k)) :
    dictGet (d.map (fun p => if p.1 = k then (k, v) else p)) k = some v := by
  induction d with
  | nil => cases h
  | cons p d ih =>
    by_cases hp : p.1 = k
    · simp [List.map_cons, if_pos hp, dictGet_cons]
    · have h2 : d.any (fun p => p.1 = k) := by
        simp only [List.any_cons, Bool.or_eq_true, decide_eq_true_eq] at h
        rcases h with h | h
        · exact absurd h hp
        · exact h
      simp only [List.map_cons, if_neg hp, dictGet_cons]
      exact ih h2

theorem dictGet_map_replace_ne (d : Dict) {k k' : String} (h : k' ≠ k) (v : Value) :
    dictGet (d.map (fun p => if p.1 = k then (k, v) else p)) k' = dictGet d k' := by
  induction d with
  | nil => rfl
  | cons p d ih =>
    by_cases hp : p.1 = k
    · have h2 : ¬ ((k, v).1 = k') := fun hh => h hh.symm
      have h3 : ¬ (p.1 = k') := by rw [hp]; exact fun hh => h hh.symm
      simp only [List.map_cons, if_pos hp, dictGet_cons, if_neg h2, if_neg h3]
      exact ih
    · simp only [List.map_cons, if_neg hp, dictGet_cons]
      by_cases hp' : p.1 = k'
      · simp [hp']
      · simp only [if_neg hp']
        exact ih

theorem dictGet_dictSet_self (d : Dict) (k : String) (v : Value) :
    dictGet (dictSet d k v) k = some v := by
  by_cases h : d.any (fun p => p.1 = k)
  · simp only [dictSet, if_pos h]
    exact dictGet_map_replace_self d k v h
  · simp only [dictSet, if_neg h]
    rw [dictGet, List.find?_append]
    have hnone : d.find? (fun p => decide (p.1 = k)) = none := by
      rw [List.find?_eq_none]
      intro p hp
      simp only [decide_eq_true_eq]
      intro hk
      exact h (List.any_eq_true.mpr ⟨p, hp, by simp [hk]⟩)
    simp [hnone, List.find?, dictGet]

theorem dictGet_dictSet_ne (d : Dict) {k k' : String} (h : k' ≠ k) (v : Value) :
    dictGet (dictSet d k v) k' = dictGet d k' := by
  by_cases hc : d.any (fun p => p.1 = k)
  · simp only [dictSet, if_pos hc]
    exact dictGet_map_replace_ne d h v
  · simp only [dictSet, if_neg hc]
    rw [dictGet, List.find?_append]
    have h2 : List.find? (fun p => decide (p.1 = k')) [(k, v)] = none := by
      simp [List.find?, Ne.symm h]
    simp [h2, dictGet]

theorem dictGet_assignAll_notMem (kvs : List (String × Value)) (d : Dict)
    (k : String) (h : k ∉ kvs.map (·.1)) :
    dictGet (assignAll d kvs) k = dictGet d k := by
  induction kvs generalizing d with
  | nil => rfl
  | cons kv kvs ih =>
    simp only [List.map_cons, List.mem_cons, not_or] at h
    simp only [assignAll, List.foldl_cons]
    rw [← assignAll]
    rw [ih _ h.2]
    exact dictGet_dictSet_ne d h.1 kv.2

theorem map_dictGet_assignAll (ks : List String) (vals : List Value) (d : Dict)
    (hnd : ks.Nodup) (hlen : vals.length = ks.length) :
    ks.map (dictGet (assignAll d (ks.zip vals))) = vals.map some := by
  induction ks generalizing d vals with
  | nil =>
    cases vals with
    | nil => rfl
    | cons v vals => cases hlen
  | cons k ks ih =>
    cases vals with
    | nil => cases hlen
    | cons v vals =>
      simp only [List.length_cons, Nat.add_right_cancel_iff] at hlen
      have hk : k ∉ ks := (List.nodup_cons.mp hnd).1
      have hnd2 : ks.Nodup := (List.nodup_cons.mp hnd).2
      simp only [List.zip_cons_cons, List.map_cons]
      have hhead : assignAll d ((k, v) :: ks.zip vals)
          = assignAll (dictSet d k v) (ks.zip vals) := rfl
      rw [hhead]
      congr 1
      · rw [dictGet_assignAll_notMem _ _ _ (by
          intro hmem
          rcases List.mem_map.mp hmem with ⟨p, hp, hp1⟩
          have h5 := (List.of_mem_zip hp).1
          rw [hp1] at h5
          exact hk h5)]
        exact dictGet_dictSet_self d k v
      · exact ih vals (dictSet d k v) hnd2 hlen

/-! ## Lemmas about `sweepPairs` and `split_configs` -/

theorem sweepPairs_keys_sublist (mc : Dict) :
    List.Sublist ((sweepPairs mc).map (·.1)) (mc.map (·.1)) := by
  induction mc with
  | nil => simp [sweepPairs]
  | cons p mc ih =>
    rcases p with ⟨k, v⟩
    cases v with
    | vlist l =>
      simp only [sweepPairs, List.filterMap_cons, List.map_cons]
      exact List.Sublist.cons₂ k ih
    | int n =>
      simp only [sweepPairs, List.filterMap_cons, List.map_cons]
      exact List.Sublist.cons k ih
    | str s =>
      simp only [sweepPairs, List.filterMap_cons, List.map_cons]
      exact List.Sublist.cons k ih
    | bool b =>
      simp only [sweepPairs, List.filterMap_cons, List.map_cons]
      exact List.Sublist.cons k ih

theorem sweepPairs_keys_nodup {mc : Dict} (h : (mc.map (·.1)).Nodup) :
    ((sweepPairs mc).map (·.1)).Nodup :=
  (sweepPairs_keys_sublist mc).nodup h

theorem assignAll_nil (d : Dict) : assignAll d [] = d := rfl

theorem split_configs_length (mc dc : Dict) :
    (split_configs mc dc).length
      = ((sweepPairs mc).map (fun p => p.2.length)).prod := by
  simp [split_configs, prodLists_length, List.map_map, Function.comp_def]

theorem split_configs_snd {mc dc : Dict} {pr : Dict × Dict}
    (h : pr ∈ split_configs mc dc) : pr.2 = dc := by
  rcases List.mem_map.mp h with ⟨items, _, rfl⟩
  rfl

theorem split_configs_mem {mc dc : Dict} {pr : Dict × Dict}
    (h : pr ∈ split_configs mc dc) :
    ∃ items ∈ prodLists ((sweepPairs mc).map (·.2)),
      pr = (assignAll mc (((sweepPairs mc).map (·.1)).zip items), dc) := by
  rcases List.mem_map.mp h with ⟨items, hmem, rfl⟩
  exact ⟨items, hmem, rfl⟩

theorem split_configs_unswept {mc dc : Dict} {pr : Dict × Dict}
    (h : pr ∈ split_configs mc dc) {k : String}
    (hk : k ∉ (sweepPairs mc).map (·.1)) :
    dictGet pr.1 k = dictGet mc k := by
  rcases split_configs_mem h with ⟨items, _, rfl⟩
  refine dictGet_assignAll_notMem _ _ _ ?_
  intro hmem
  rcases List.mem_map.mp hmem with ⟨p, hp, hp1⟩
  have h5 := (List.of_mem_zip hp).1
  rw [hp1] at h5
  exact hk h5

theorem split_configs_swept_values {mc dc : Dict}
    (hkeys : (mc.map (·.1)).Nodup) :
    (split_configs mc dc).map
        (fun pr => ((sweepPairs mc).map (·.1)).map (dictGet pr.1))
      = (prodLists ((sweepPairs mc).map (·.2))).map (List.map some) := by
  rw [split_configs, List.map_map]
  refine List.map_congr_left ?_
  intro items hmem
  have hlen : items.length = ((sweepPairs mc).map (·.1)).length := by
    have h2 := (mem_prodLists.mp hmem).length_eq
    simpa using h2
  exact map_dictGet_assignAll _ _ _ (sweepPairs_keys_nodup hkeys) hlen

/-! ## Injectivity of the decimal rendering -/

theorem digitChar_injOn :
    ∀ a < 10, ∀ b < 10, Nat.digitChar a = Nat.digitChar b → a = b := by
  decide

theorem map_digitChar_inj :
    ∀ {l m : List Nat}, (∀ x ∈ l, x < 10) → (∀ x ∈ m, x < 10) →
      l.map Nat.digitChar = m.map Nat.digitChar → l = m := by
  intro l
  induction l with
  | nil =>
    intro m _ _ h
    cases m with
    | nil => rfl
    | cons b m => cases h
  | cons a l ih =>
    intro m hl hm h
    cases m with
    | nil => cases h
    | cons b m =>
      simp only [List.map_cons, List.cons.injEq] at h
      have hab : a = b :=
        digitChar_injOn a (hl a (List.mem_cons_self a l))
          b (hm b (List.mem_cons_self b m)) h.1
      rw [hab, ih (fun x hx => hl x (List.mem_cons_of_mem _ hx))
            (fun x hx => hm x (List.mem_cons_of_mem _ hx)) h.2]

theorem digitsRev_eq_digits :
    ∀ {fuel n : Nat}, n ≤ fuel → digitsRev fuel n = Nat.digits 10 n := by
  intro fuel
  induction fuel with
  | zero =>
    intro n h
    interval_cases n
    simp [digitsRev]
  | succ fuel ih =>
    intro n h
    by_cases hn : n = 0
    · simp [digitsRev, hn]
    · rw [digitsRev, if_neg hn,
        Nat.digits_def' (by norm_num : 1 < 10) (Nat.pos_of_ne_zero hn)]
      have h2 := Nat.div_lt_self (Nat.pos_of_ne_zero hn) (by norm_num : 1 < 10)
      rw [ih (by omega)]

theorem natToString_of_ne_zero {n : Nat} (h : n ≠ 0) :
    natToString n = ((Nat.digits 10 n).reverse.map Nat.digitChar).asString := by
  rw [natToString, if_neg h, digitsRev_eq_digits le_rfl]

theorem natToString_inj : ∀ {a b : Nat}, natToString a = natToString b → a = b := by
  intro a b h
  have digitsBound : ∀ (n : Nat), ∀ x ∈ (Nat.digits 10 n).reverse, x < 10 := by
    intro n x hx
    exact Nat.digits_lt_base (by norm_num) (List.mem_reverse.mp hx)
  have single : ∀ (n : Nat), n ≠ 0 →
      ((Nat.digits 10 n).reverse.map Nat.digitChar).asString ≠ "0" := by
    intro n hn hcontra
    have h2 : (Nat.digits 10 n).reverse.map Nat.digitChar = ['0'] :=
      List.asString_eq.mp hcontra
    have h3 : (Nat.digits 10 n).reverse.map Nat.digitChar
        = [(0 : Nat)].map Nat.digitChar := h2
    have h4 := map_digitChar_inj (digitsBound n) (by simp) h3
    have h5 : Nat.digits 10 n = [0] := by
      have := congrArg List.reverse h4
      simpa using this
    have h7 : n = Nat.ofDigits 10 (Nat.digits 10 n) := (Nat.ofDigits_digits 10 n).symm
    rw [h5] at h7
    simp [Nat.ofDigits] at h7
    exact hn h7
  by_cases ha : a = 0 <;> by_cases hb : b = 0
  · rw [ha, hb]
  · exfalso
    rw [natToString_of_ne_zero hb] at h
    rw [natToString, if_pos ha] at h
    exact single b hb h.symm
  · exfalso
    rw [natToString_of_ne_zero ha] at h
    rw [natToString, if_pos hb] at h
    exact single a ha h
  · rw [natToString_of_ne_zero ha, natToString_of_ne_zero hb,
      List.asString_inj] at h
    have h3 := map_digitChar_inj (digitsBound a) (digitsBound b) h
    have h4 : Nat.digits 10 a = Nat.digits 10 b := by
      have := congrArg List.reverse h3
      simpa using this
    calc a = Nat.ofDigits 10 (Nat.digits 10 a) := (Nat.ofDigits_digits 10 a).symm
    _ = Nat.ofDigits 10 (Nat.digits 10 b) := by rw [h4]
    _ = b := Nat.ofDigits_digits 10 b

theorem string_data_inj {s t : String} (h : s.data = t.data) : s = t := by
  cases s
  cases t
  exact congrArg String.mk h

theorem outputsName_inj {i j : Nat}
    (h : "outputs" ++ natToString i = "outputs" ++ natToString j) : i = j := by
  have h2 : ("outputs" ++ natToString i).data = ("outputs" ++ natToString j).data :=
    congrArg String.data h
  simp only [String.data_append] at h2
  exact natToString_inj (string_data_inj (List.append_cancel_left h2))

/-! ## The dispatch-loop invariant -/

/-- The run step the loop registers on its `i`-th iteration (when the
accumulator started empty). -/
def expectedRunStep (env : Env) (en : String) (i : Nat) : PStep :=
  .runStep
    { script_name := "run_experiment_step.py"
      arguments := [.lit "--step", .lit "single_seed_experiment",
                    .lit "--kwargs", .lit (env.kwargsFile i)]
      step_name := en
      output_dir := "outputs" ++ natToString i }

/-- The loop invariant: descriptor files are the oracle's outputs in call
order, output references and registered run steps are indexed `0..n-1`,
and every dispatched bundle carries the experiment-wide constants. -/
def GoodAcc (env : Env) (inp : Inputs) (md en : String) (acc : LoopAcc) : Prop :=
  acc.kwargs_files = (List.range acc.bundles.length).map env.kwargsFile
  ∧ (env.pipelineMode = true →
      acc.train_step_outputs = List.range acc.bundles.length
      ∧ acc.pipeline_steps
          = (List.range acc.bundles.length).map (expectedRunStep env en))
  ∧ (env.pipelineMode = false →
      acc.pipeline_steps = [] ∧ acc.train_step_outputs = [])
  ∧ ∀ b ∈ acc.bundles,
      b.train_hypers = inp.train_hypers ∧ b.dataset_config = inp.dataset_config
      ∧ b.output_dir = md ∧ b.experiment_name = en
      ∧ b.dataset_name = inp.dataset_name ∧ b.model_type = inp.model_type

theorem GoodAcc_init (env : Env) (inp : Inputs) (md en : String) :
    GoodAcc env inp md en ⟨[], [], [], []⟩ := by
  refine ⟨by simp, fun _ => ⟨by simp, by simp⟩, fun _ => ⟨rfl, rfl⟩, ?_⟩
  intro b hb
  cases hb

theorem dispatchStep_good {env : Env} {inp : Inputs} {md en : String}
    {acc acc2 : LoopAcc} {mc dc : Dict}
    (h : dispatchStep env inp md en acc mc dc = .ok acc2)
    (hdc : dc = inp.dataset_config)
    (hg : GoodAcc env inp md en acc) :
    GoodAcc env inp md en acc2
      ∧ acc2.bundles.length = acc.bundles.length + 1 := by
  rcases hg with ⟨hkf, hpt, hpf, hb⟩
  have hkl : acc.kwargs_files.length = acc.bundles.length := by
    rw [hkf]; simp
  unfold dispatchStep at h
  cases hds : dictGet dc "random_seed" with
  | none => rw [hds] at h; cases h
  | some dseed =>
    rw [hds] at h
    cases hms : dictGet mc "random_seed" with
    | none => rw [hms] at h; cases h
    | some mseed =>
      rw [hms] at h
      dsimp only at h
      by_cases hp : env.pipelineMode
      · rw [if_pos hp] at h
        have htl : acc.train_step_outputs.length = acc.bundles.length := by
          rw [(hpt hp).1]; simp
        injection h with h
        subst h
        refine ⟨⟨?_, fun _ => ⟨?_, ?_⟩, fun hc => absurd hp (by simp [hc]), ?_⟩, by simp⟩
        · simp only [List.length_append, List.length_singleton]
          rw [List.range_succ, List.map_append, hkl, hkf]
          simp
        · simp only [List.length_append, List.length_singleton]
          rw [List.range_succ, htl, (hpt hp).1]
        · simp only [List.length_append, List.length_singleton]
          rw [List.range_succ, List.map_append, htl, hkl, (hpt hp).2]
          simp [expectedRunStep]
        · intro b hbmem
          rcases List.mem_append.mp hbmem with hmem | hmem
          · exact hb b hmem
          · rcases List.mem_singleton.mp hmem with rfl
            exact ⟨rfl, hdc.symm ▸ rfl, rfl, rfl, rfl, rfl⟩
      · rw [if_neg hp] at h
        injection h with h
        subst h
        refine ⟨⟨?_, fun hc => absurd hc hp, fun _ => ⟨(hpf (by simpa using hp)).1,
          (hpf (by simpa using hp)).2⟩, ?_⟩, by simp⟩
        · simp only [List.length_append, List.length_singleton]
          rw [List.range_succ, List.map_append, hkl, hkf]
          simp
        · intro b hbmem
          rcases List.mem_append.mp hbmem with hmem | hmem
          · exact hb b hmem
          · rcases List.mem_singleton.mp hmem with rfl
            exact ⟨rfl, hdc.symm ▸ rfl, rfl, rfl, rfl, rfl⟩

theorem dispatchStep_len {env : Env} {inp : Inputs} {md en : String}
    {acc acc2 : LoopAcc} {mc dc : Dict}
    (h : dispatchStep env inp md en acc mc dc = .ok acc2) :
    acc2.bundles.length = acc.bundles.length + 1 := by
  unfold dispatchStep at h
  cases hds : dictGet dc "random_seed" with
  | none => rw [hds] at h; cases h
  | some dseed =>
    rw [hds] at h
    cases hms : dictGet mc "random_seed" with
    | none => rw [hms] at h; cases h
    | some mseed =>
      rw [hms] at h
      dsimp only at h
      by_cases hp : env.pipelineMode
      · rw [if_pos hp] at h
        injection h with h
        subst h
        simp
      · rw [if_neg hp] at h
        injection h with h
        subst h
        simp

theorem dispatchLoop_good {env : Env} {inp : Inputs} {md en : String} :
    ∀ {cs : List (Dict × Dict)} {acc acc' : LoopAcc} {err : Option PyErr},
      dispatchLoop env inp md en cs acc = (acc', err) →
      (∀ pr ∈ cs, pr.2 = inp.dataset_config) →
      GoodAcc env inp md en acc →
      GoodAcc env inp md en acc' := by
  intro cs
  induction cs with
  | nil =>
    intro acc acc' err h _ hg
    simp only [dispatchLoop, Prod.mk.injEq] at h
    rw [← h.1]
    exact hg
  | cons c cs ih =>
    intro acc acc' err h hcs hg
    rcases c with ⟨mc, dc⟩
    simp only [dispatchLoop] at h
    cases hstep : dispatchStep env inp md en acc mc dc with
    | error e =>
      rw [hstep] at h
      simp only [Prod.mk.injEq] at h
      rw [← h.1]
      exact hg
    | ok acc2 =>
      rw [hstep] at h
      have hdc : dc = inp.dataset_config := hcs (mc, dc) (List.mem_cons_self _ _)
      exact ih h (fun pr hpr => hcs pr (List.mem_cons_of_mem _ hpr))
        (dispatchStep_good hstep hdc hg).1

theorem dispatchLoop_length {env : Env} {inp : Inputs} {md en : String} :
    ∀ {cs : List (Dict × Dict)} {acc acc' : LoopAcc},
      dispatchLoop env inp md en cs acc = (acc', none) →
      acc'.bundles.length = acc.bundles.length + cs.length := by
  intro cs
  induction cs with
  | nil =>
    intro acc acc' h
    simp only [dispatchLoop, Prod.mk.injEq] at h
    rw [← h.1]
    simp
  | cons c cs ih =>
    intro acc acc' h
    rcases c with ⟨mc, dc⟩
    simp only [dispatchLoop] at h
    cases hstep : dispatchStep env inp md en acc mc dc with
    | error e =>
      rw [hstep] at h
      simp at h
    | ok acc2 =>
      rw [hstep] at h
      have h1 := ih h
      have h2 := dispatchStep_len hstep
      rw [h1, h2]
      simp only [List.length_cons]
      omega

theorem dispatchStep_ok_of_seeds (env : Env) (inp : Inputs) (md en : String)
    (acc : LoopAcc) (mc dc : Dict) (h1 : (dictGet mc "random_seed").isSome)
    (h2 : (dictGet dc "random_seed").isSome) :
    ∃ acc2, dispatchStep env inp md en acc mc dc = .ok acc2 := by
  rcases Option.isSome_iff_exists.mp h2 with ⟨dv, hdv⟩
  rcases Option.isSome_iff_exists.mp h1 with ⟨mv, hmv⟩
  unfold dispatchStep
  rw [hdv, hmv]
  dsimp only
  by_cases hp : env.pipelineMode
  · rw [if_pos hp]
    exact ⟨_, rfl⟩
  · rw [if_neg hp]
    exact ⟨_, rfl⟩

theorem dispatchLoop_no_keyError (env : Env) (inp : Inputs) (md en : String) :
    ∀ {cs : List (Dict × Dict)} (acc : LoopAcc),
      (∀ pr ∈ cs, (dictGet pr.1 "random_seed").isSome
        ∧ (dictGet pr.2 "random_seed").isSome) →
      ∃ acc', dispatchLoop env inp md en cs acc = (acc', none) := by
  intro cs
  induction cs with
  | nil => exact fun acc _ => ⟨acc, rfl⟩
  | cons c cs ih =>
    intro acc hs
    rcases c with ⟨mc, dc⟩
    have h1 := hs (mc, dc) (List.mem_cons_self _ _)
    rcases dispatchStep_ok_of_seeds env inp md en acc mc dc h1.1 h1.2 with ⟨acc2, hstep⟩
    rcases ih acc2 (fun pr hpr => hs pr (List.mem_cons_of_mem _ hpr)) with ⟨acc', h'⟩
    refine ⟨acc', ?_⟩
    simp only [dispatchLoop, hstep]
    exact h'

/-- If `random_seed` is present in the input model config, it is present
(possibly swept to a candidate value) in every expanded config. -/
theorem split_configs_seed {mc dc : Dict} (hkeys : (mc.map (·.1)).Nodup)
    (hmc : (dictGet mc "random_seed").isSome) {pr : Dict × Dict}
    (h : pr ∈ split_configs mc dc) :
    (dictGet pr.1 "random_seed").isSome := by
  by_cases hk : "random_seed" ∈ (sweepPairs mc).map (·.1)
  · rcases split_configs_mem h with ⟨items, hmem, rfl⟩
    have hlen : items.length = ((sweepPairs mc).map (·.1)).length := by
      simpa using (mem_prodLists.mp hmem).length_eq
    have heq := map_dictGet_assignAll ((sweepPairs mc).map (·.1)) items mc
        (sweepPairs_keys_nodup hkeys) hlen
    have hmm := List.mem_map_of_mem
        (dictGet (assignAll mc (((sweepPairs mc).map (·.1)).zip items))) hk
    rw [heq] at hmm
    rcases List.mem_map.mp hmm with ⟨v, _, hv⟩
    rw [← hv]
    rfl
  · rw [split_configs_unswept h hk]
    exact hmc

/-! ## Unfolding the orchestration on each control path -/

theorem run_experiment_createDir0 {env : Env} (inp : Inputs) {md : String}
    (h : env.createDir 0 = .ok md) :
    run_experiment env inp = runWithDir env inp md 1 0 := by
  simp [run_experiment, h]

theorem run_experiment_retry {env : Env} (inp : Inputs) {md : String}
    (h0 : env.createDir 0 = .error ()) (h1 : env.createDir 1 = .ok md) :
    run_experiment env inp = runWithDir env inp md 2 1 := by
  simp [run_experiment, h0, h1]

theorem run_experiment_twoFailures {env : Env} (inp : Inputs)
    (h0 : env.createDir 0 = .error ()) (h1 : env.createDir 1 = .error ()) :
    run_experiment env inp
      = { create_calls := 2, sleeps := 1, result := .error .fileExistsError } := by
  simp [run_experiment, h0, h1]

theorem runWithDir_tagsFail (env : Env) (inp : Inputs) (md : String)
    (calls sleeps : Nat) (ht0 : env.setTagsOk 0 = false) :
    runWithDir env inp md calls sleeps
      = { create_calls := calls, sleeps := sleeps, models_dir := some md
          result := .error .mlflowError } := by
  simp [runWithDir, ht0]

theorem runWithDir_pipeline_eq (env : Env) (inp : Inputs) (md : String)
    (calls sleeps : Nat) (acc : LoopAcc)
    (ht0 : env.setTagsOk 0 = true) (ht1 : env.setTagsOk 1 = true)
    (hloop : dispatchLoop env inp md (expName inp)
        (split_configs inp.model_config inp.dataset_config) ⟨[], [], [], []⟩
      = (acc, none))
    (hp : env.pipelineMode = true) :
    runWithDir env inp md calls sleeps =
      { create_calls := calls, sleeps := sleeps, models_dir := some md
        num_samples_tag :=
          some (split_configs inp.model_config inp.dataset_config).length
        bundles := acc.bundles
        kwargs_files := acc.kwargs_files
          ++ [env.kwargsFile acc.kwargs_files.length]
        pipeline_steps := acc.pipeline_steps ++
          [.aggStep
            { script_name := "run_experiment_step.py"
              arguments := [.lit "--step", .lit "aggregation", .lit "--kwargs",
                            .lit (env.kwargsFile acc.kwargs_files.length),
                            .lit "--input_dirs"]
                           ++ acc.train_step_outputs.map .out
              inputs := acc.train_step_outputs
              step_name := expName inp }]
        train_step_outputs := acc.train_step_outputs
        agg_kwargs := some { input_dirs := env.scanDirs, output_dir := md,
                             experiment_name := expName inp }
        run_calls := 1
        deleted := if env.deleteKwargsFiles then
            acc.kwargs_files ++ [env.kwargsFile acc.kwargs_files.length]
          else []
        result := .ok md } := by
  simp [runWithDir, ht0, ht1, hloop, hp]

theorem runWithDir_local_eq (env : Env) (inp : Inputs) (md : String)
    (calls sleeps : Nat) (acc : LoopAcc)
    (ht0 : env.setTagsOk 0 = true) (ht1 : env.setTagsOk 1 = true)
    (hloop : dispatchLoop env inp md (expName inp)
        (split_configs inp.model_config inp.dataset_config) ⟨[], [], [], []⟩
      = (acc, none))
    (hp : env.pipelineMode = false) :
    runWithDir env inp md calls sleeps =
      { create_calls := calls, sleeps := sleeps, models_dir := some md
        num_samples_tag :=
          some (split_configs inp.model_config inp.dataset_config).length
        bundles := acc.bundles
        kwargs_files := acc.kwargs_files
          ++ [env.kwargsFile acc.kwargs_files.length]
        pipeline_steps := acc.pipeline_steps
        train_step_outputs := acc.train_step_outputs
        agg_kwargs := some { input_dirs := env.scanDirs, output_dir := md,
                             experiment_name := expName inp }
        run_calls := 0
        deleted := []
        result := .ok md } := by
  simp [runWithDir, ht0, ht1, hloop, hp]

theorem runWithDir_keyError_eq (env : Env) (inp : Inputs) (md : String)
    (calls sleeps : Nat) (acc : LoopAcc) (e : PyErr)
    (ht0 : env.setTagsOk 0 = true) (ht1 : env.setTagsOk 1 = true)
    (hloop : dispatchLoop env inp md (expName inp)
        (split_configs inp.model_config inp.dataset_config) ⟨[], [], [], []⟩
      = (acc, some e)) :
    runWithDir env inp md calls sleeps =
      { create_calls := calls, sleeps := sleeps, models_dir := some md
        num_samples_tag :=
          some (split_configs inp.model_config inp.dataset_config).length
        bundles := acc.bundles
        kwargs_files := acc.kwargs_files
        pipeline_steps := acc.pipeline_steps
        train_step_outputs := acc.train_step_outputs
        result := .error e } := by
  simp [runWithDir, ht0, ht1, hloop]

/-- The pipeline-mode success path of `run_experiment`, packaged: the loop
finishes with an accumulator satisfying the invariant, having dispatched
one bundle per expanded config, and the resulting trace is explicit. -/
theorem run_experiment_pipeline_spec (env : Env) (inp : Inputs) (md : String)
    (hd : env.createDir 0 = .ok md)
    (ht0 : env.setTagsOk 0 = true) (ht1 : env.setTagsOk 1 = true)
    (hp : env.pipelineMode = true)
    (hkeys : (inp.model_config.map (·.1)).Nodup)
    (hmc : (dictGet inp.model_config "random_seed").isSome)
    (hdcseed : (dictGet inp.dataset_config "random_seed").isSome) :
    ∃ acc : LoopAcc,
      GoodAcc env inp md (expName inp) acc
      ∧ acc.bundles.length
          = (split_configs inp.model_config inp.dataset_config).length
      ∧ run_experiment env inp =
        { create_calls := 1, sleeps := 0, models_dir := some md
          num_samples_tag :=
            some (split_configs inp.model_config inp.dataset_config).length
          bundles := acc.bundles
          kwargs_files := acc.kwargs_files
            ++ [env.kwargsFile acc.kwargs_files.length]
          pipeline_steps := acc.pipeline_steps ++
            [.aggStep
              { script_name := "run_experiment_step.py"
                arguments := [.lit "--step", .lit "aggregation", .lit "--kwargs",
                              .lit (env.kwargsFile acc.kwargs_files.length),
                              .lit "--input_dirs"]
                             ++ acc.train_step_outputs.map .out
                inputs := acc.train_step_outputs
                step_name := expName inp }]
          train_step_outputs := acc.train_step_outputs
          agg_kwargs := some { input_dirs := env.scanDirs, output_dir := md,
                               experiment_name := expName inp }
          run_calls := 1
          deleted := if env.deleteKwargsFiles then
              acc.kwargs_files ++ [env.kwargsFile acc.kwargs_files.length]
            else []
          result := .ok md } := by
  have hseeds : ∀ pr ∈ split_configs inp.model_config inp.dataset_config,
      (dictGet pr.1 "random_seed").isSome
        ∧ (dictGet pr.2 "random_seed").isSome := by
    intro pr hpr
    refine ⟨split_configs_seed hkeys hmc hpr, ?_⟩
    rw [split_configs_snd hpr]
    exact hdcseed
  rcases dispatchLoop_no_keyError env inp md (expName inp) ⟨[], [], [], []⟩ hseeds
    with ⟨acc, hloop⟩
  refine ⟨acc, ?_, ?_, ?_⟩
  · exact dispatchLoop_good hloop (fun pr hpr => split_configs_snd hpr)
      (GoodAcc_init env inp md (expName inp))
  · have := dispatchLoop_length hloop
    simpa using this
  · rw [run_experiment_createDir0 inp hd]
    exact runWithDir_pipeline_eq env inp md 1 0 acc ht0 ht1 hloop hp

/-! ## Frame property of the heap-level expansion -/

/-- `s'` agrees with `s` on every object id below `n` and has at least `n`
objects. -/
def preservesBelow (n : Nat) (s s' : Store) : Prop :=
  n ≤ s'.objs.length ∧ ∀ i, i < n → s'.objs.get? i = s.objs.get? i

theorem preservesBelow_refl (n : Nat) (s : Store) (h : n ≤ s.objs.length) :
    preservesBelow n s s := ⟨h, fun _ _ => rfl⟩

theorem preservesBelow_trans {n : Nat} {s1 s2 s3 : Store}
    (h1 : preservesBelow n s1 s2) (h2 : preservesBelow n s2 s3) :
    preservesBelow n s1 s3 :=
  ⟨h2.1, fun i hi => (h2.2 i hi).trans (h1.2 i hi)⟩

theorem preservesBelow_alloc {n : Nat} {s : Store} (h : n ≤ s.objs.length)
    (d : Dict) : preservesBelow n s (s.alloc d) := by
  refine ⟨?_, fun i hi => ?_⟩
  · simp only [Store.alloc, List.length_append]
    omega
  · simp only [Store.alloc]
    simp [List.get?_eq_getElem?, List.getElem?_append, lt_of_lt_of_le hi h]

theorem preservesBelow_setItem {n : Nat} {s : Store} {r : Nat} (hr : n ≤ r)
    (hlen : n ≤ s.objs.length) (k : String) (v : Value) :
    preservesBelow n s (s.setItem r k v) := by
  refine ⟨?_, fun i hi => ?_⟩
  · simp only [Store.setItem, Store.write, List.length_set]
    exact hlen
  · simp only [Store.setItem, Store.write]
    simp [List.get?_eq_getElem?, List.getElem?_set_ne (by omega : r ≠ i)]

theorem preservesBelow_assignAllH {n r : Nat} (hr : n ≤ r) :
    ∀ (kvs : List (String × Value)) {s : Store}, n ≤ s.objs.length →
      preservesBelow n s (assignAllH s r kvs) := by
  intro kvs
  induction kvs with
  | nil =>
    intro s h
    exact preservesBelow_refl n s h
  | cons kv kvs ih =>
    intro s h
    have h1 := preservesBelow_setItem hr h kv.1 kv.2
    exact preservesBelow_trans h1 (ih h1.1)

theorem foldl_heap_preserves (mcRef dcRef : Nat) (ks : List String) (n : Nat)
    (s : Store) :
    ∀ (L : List (List Value)) (acc : Store × List (Nat × Nat)),
      preservesBelow n s acc.1 →
      preservesBelow n s
        (L.foldl (fun acc items =>
          let newRef := acc.1.objs.length
          let s1 := acc.1.alloc (acc.1.read mcRef)
          let s2 := assignAllH s1 newRef (ks.zip items)
          (s2, acc.2 ++ [(newRef, dcRef)])) acc).1 := by
  intro L
  induction L with
  | nil => exact fun acc h => h
  | cons items L ih =>
    intro acc h
    rw [List.foldl_cons]
    apply ih
    dsimp only
    have hn : n ≤ acc.1.objs.length := h.1
    have h1 : preservesBelow n acc.1 (acc.1.alloc (acc.1.read mcRef)) :=
      preservesBelow_alloc hn _
    have h2 := preservesBelow_assignAllH hn (ks.zip items) h1.1
    exact preservesBelow_trans h (preservesBelow_trans h1 h2)

theorem split_configs_heap_frame (s : Store) (mcRef dcRef : Nat) :
    preservesBelow s.objs.length s (split_configs_heap s mcRef dcRef).1 := by
  unfold split_configs_heap
  dsimp only
  exact foldl_heap_preserves mcRef dcRef _ _ s _ (s, [])
    (preservesBelow_refl _ s le_rfl)

theorem read_eq_of_preservesBelow {n : Nat} {s s' : Store}
    (h : preservesBelow n s s') {r : Nat} (hr : r < n) :
    s'.read r = s.read r := by
  have h2 := h.2 r hr
  simp only [List.get?_eq_getElem?] at h2
  simp [Store.read, h2]

theorem runWithDir_tags2Fail (env : Env) (inp : Inputs) (md : String)
    (calls sleeps : Nat) (ht0 : env.setTagsOk 0 = true)
    (ht1 : env.setTagsOk 1 = false) :
    runWithDir env inp md calls sleeps
      = { create_calls := calls, sleeps := sleeps, models_dir := some md
          num_samples_tag := none, result := .error .mlflowError } := by
  simp [runWithDir, ht0, ht1]

theorem runWithDir_models_dir (env : Env) (inp : Inputs) (md : String)
    (calls sleeps : Nat) :
    (runWithDir env inp md calls sleeps).models_dir = some md
    ∧ (runWithDir env inp md calls sleeps).create_calls = calls
    ∧ (runWithDir env inp md calls sleeps).sleeps = sleeps := by
  cases h0 : env.setTagsOk 0 with
  | false =>
    rw [runWithDir_tagsFail env inp md calls sleeps h0]
    exact ⟨rfl, rfl, rfl⟩
  | true =>
    cases h1 : env.setTagsOk 1 with
    | false =>
      rw [runWithDir_tags2Fail env inp md calls sleeps h0 h1]
      exact ⟨rfl, rfl, rfl⟩
    | true =>
      rcases hdl : dispatchLoop env inp md (expName inp)
          (split_configs inp.model_config inp.dataset_config) ⟨[], [], [], []⟩
        with ⟨acc, err⟩
      cases err with
      | some e =>
        rw [runWithDir_keyError_eq env inp md calls sleeps acc e h0 h1 hdl]
        exact ⟨rfl, rfl, rfl⟩
      | none =>
        cases hp : env.pipelineMode with
        | true =>
          rw [runWithDir_pipeline_eq env inp md calls sleeps acc h0 h1 hdl hp]
          exact ⟨rfl, rfl, rfl⟩
        | false =>
          rw [runWithDir_local_eq env inp md calls sleeps acc h0 h1 hdl hp]
          exact ⟨rfl, rfl, rfl⟩

theorem runWithDir_bundles_good (env : Env) (inp : Inputs) (md : String)
    (calls sleeps : Nat) :
    ∀ b ∈ (runWithDir env inp md calls sleeps).bundles,
      b.train_hypers = inp.train_hypers
        ∧ b.dataset_config = inp.dataset_config := by
  cases h0 : env.setTagsOk 0 with
  | false =>
    rw [runWithDir_tagsFail env inp md calls sleeps h0]
    intro b hb
    cases hb
  | true =>
    cases h1 : env.setTagsOk 1 with
    | false =>
      rw [runWithDir_tags2Fail env inp md calls sleeps h0 h1]
      intro b hb
      cases hb
    | true =>
      rcases hdl : dispatchLoop env inp md (expName inp)
          (split_configs inp.model_config inp.dataset_config) ⟨[], [], [], []⟩
        with ⟨acc, err⟩
      have hgood := dispatchLoop_good hdl (fun pr hpr => split_configs_snd hpr)
        (GoodAcc_init env inp md (expName inp))
      have hq := hgood.2.2.2
      cases err with
      | some e =>
        rw [runWithDir_keyError_eq env inp md calls sleeps acc e h0 h1 hdl]
        intro b hbm
        exact ⟨(hq b hbm).1, (hq b hbm).2.1⟩
      | none =>
        cases hp : env.pipelineMode with
        | true =>
          rw [runWithDir_pipeline_eq env inp md calls sleeps acc h0 h1 hdl hp]
          intro b hbm
          exact ⟨(hq b hbm).1, (hq b hbm).2.1⟩
        | false =>
          rw [runWithDir_local_eq env inp md calls sleeps acc h0 h1 hdl hp]
          intro b hbm
          exact ⟨(hq b hbm).1, (hq b hbm).2.1⟩

theorem filterMap_some_eq_map {α β : Type} (f : α → β) (l : List α) :
    l.filterMap (fun x => some (f x)) = l.map f := by
  induction l with
  | nil => rfl
  | cons a l ih => simp [List.filterMap_cons, ih]

/-! ## The claims -/

/-- C1: for every sweep config whose model config has list-valued fields
of sizes n1..nk, `split_configs` returns exactly n1*...*nk pairs; every
pair carries `dataset_config` unchanged; non-swept fields are identical to
the input; the tuples of swept values across the output are exactly the
Cartesian product list, which (for duplicate-free candidate lists) is
duplicate-free and whose members are exactly every combination of
candidates; zero list-valued fields yield exactly the one input pair; an
empty candidate list for any swept field yields zero pairs. -/
theorem split_configs_cartesian (mc dc : Dict)
    (hkeys : (mc.map (fun p => p.1)).Nodup)
    (hcand : ∀ p ∈ sweepPairs mc, p.2.Nodup) :
    (split_configs mc dc).length
        = ((sweepPairs mc).map (fun p => p.2.length)).prod
    ∧ (∀ pr ∈ split_configs mc dc, pr.2 = dc)
    ∧ (∀ pr ∈ split_configs mc dc, ∀ k, k ∉ (sweepPairs mc).map (fun p => p.1) →
        dictGet pr.1 k = dictGet mc k)
    ∧ (split_configs mc dc).map
          (fun pr => ((sweepPairs mc).map (fun p => p.1)).map (dictGet pr.1))
        = (prodLists ((sweepPairs mc).map (fun p => p.2))).map (List.map some)
    ∧ ((prodLists ((sweepPairs mc).map (fun p => p.2))).map (List.map some)).Nodup
    ∧ (∀ vs, vs ∈ prodLists ((sweepPairs mc).map (fun p => p.2)) ↔
        List.Forall₂ (fun v l => v ∈ l) vs ((sweepPairs mc).map (fun p => p.2)))
    ∧ (sweepPairs mc = [] → split_configs mc dc = [(mc, dc)])
    ∧ ((∃ p ∈ sweepPairs mc, p.2 = []) → split_configs mc dc = []) := by
  refine ⟨split_configs_length mc dc, fun pr h => split_configs_snd h,
    fun pr h k hk => split_configs_unswept h hk,
    split_configs_swept_values hkeys, ?_, fun vs => mem_prodLists, ?_, ?_⟩
  · refine List.Nodup.map (List.map_injective_iff.mpr (Option.some_injective _))
      (nodup_prodLists ?_)
    intro l hl
    rcases List.mem_map.mp hl with ⟨p, hp, rfl⟩
    exact hcand p hp
  · intro h
    simp [split_configs, h, prodLists, assignAll]
  · rintro ⟨p, hp, hp2⟩
    have hmem : [] ∈ (sweepPairs mc).map (fun p => p.2) := by
      rw [← hp2]
      exact List.mem_map_of_mem _ hp
    simp [split_configs, prodLists_eq_nil hmem]

/-- Witness for C1 at the concrete sweep `inpW` (two candidates for
`lr`). -/
theorem split_configs_cartesian_witness :
    (split_configs inpW.model_config inpW.dataset_config).length
      = ((sweepPairs inpW.model_config).map (fun p => p.2.length)).prod :=
  (split_configs_cartesian inpW.model_config inpW.dataset_config
    (by decide)
    (by
      intro p hp
      simp [sweepPairs, inpW] at hp
      rw [hp]
      simp)).1

/-- C6: directory creation is retried exactly once after a 1-second sleep;
success on either attempt yields that directory (with one or two calls
made); two consecutive collisions surface `FileExistsError` to the caller
with no further attempts and nothing dispatched. -/
theorem create_dir_retry_behavior (env : Env) (inp : Inputs) :
    (∀ md, env.createDir 0 = .ok md →
      (run_experiment env inp).models_dir = some md
      ∧ (run_experiment env inp).create_calls = 1
      ∧ (run_experiment env inp).sleeps = 0)
    ∧ (∀ md, env.createDir 0 = .error () → env.createDir 1 = .ok md →
      (run_experiment env inp).models_dir = some md
      ∧ (run_experiment env inp).create_calls = 2
      ∧ (run_experiment env inp).sleeps = 1)
    ∧ (env.createDir 0 = .error () → env.createDir 1 = .error () →
      (run_experiment env inp).result = .error .fileExistsError
      ∧ (run_experiment env inp).create_calls = 2
      ∧ (run_experiment env inp).sleeps = 1
      ∧ (run_experiment env inp).bundles = []
      ∧ (run_experiment env inp).run_calls = 0) := by
  refine ⟨?_, ?_, ?_⟩
  · intro md h
    rw [run_experiment_createDir0 inp h]
    exact runWithDir_models_dir env inp md 1 0
  · intro md h0 h1
    rw [run_experiment_retry inp h0 h1]
    exact runWithDir_models_dir env inp md 2 1
  · intro h0 h1
    rw [run_experiment_twoFailures inp h0 h1]
    exact ⟨rfl, rfl, rfl, rfl, rfl⟩

/-- Witness for C6: a first-attempt collision with a successful retry
yields the retried directory after one sleep, and the all-collisions
environment is fatal. -/
theorem create_dir_retry_behavior_witness :
    ((run_experiment envR inpW).models_dir = some "runs/exp2"
      ∧ (run_experiment envR inpW).create_calls = 2
      ∧ (run_experiment envR inpW).sleeps = 1)
    ∧ (run_experiment envF inpW).result = .error .fileExistsError :=
  ⟨(create_dir_retry_behavior envR inpW).2.1 "runs/exp2" rfl rfl,
   ((create_dir_retry_behavior envF inpW).2.2 rfl rfl).1⟩

/-- C7 counterexample: with a failing tag-recording sink the invocation
aborts with the propagated error before any expansion, dispatch or
aggregation, contradicting the claim that it proceeds. -/
theorem tag_failure_abort_counterexample :
    (run_experiment envT inpW).result = .error .mlflowError
    ∧ (run_experiment envT inpW).bundles = []
    ∧ (run_experiment envT inpW).pipeline_steps = []
    ∧ (run_experiment envT inpW).agg_kwargs = none
    ∧ (run_experiment envT inpW).run_calls = 0
    ∧ (run_experiment envT inpW).num_samples_tag = none :=
  ⟨rfl, rfl, rfl, rfl, rfl, rfl⟩

/-- C7 (amended): the tag-recording call (`mlflow.set_tags`, line 142) is
unguarded, so a failure there propagates and aborts the invocation: no
config expansion is recorded, no run is dispatched, no aggregation is
constructed and the trigger is never invoked. -/
theorem tag_failure_aborts (env : Env) (inp : Inputs) (md : String)
    (hd : env.createDir 0 = .ok md) (ht0 : env.setTagsOk 0 = false) :
    (run_experiment env inp).result = .error .mlflowError
    ∧ (run_experiment env inp).bundles = []
    ∧ (run_experiment env inp).pipeline_steps = []
    ∧ (run_experiment env inp).agg_kwargs = none
    ∧ (run_experiment env inp).run_calls = 0
    ∧ (run_experiment env inp).num_samples_tag = none := by
  rw [run_experiment_createDir0 inp hd,
    runWithDir_tagsFail env inp md 1 0 ht0]
  exact ⟨rfl, rfl, rfl, rfl, rfl, rfl⟩

/-- Witness for the amended C7 at the concrete failing-sink environment. -/
theorem tag_failure_aborts_witness :
    (run_experiment envT inpW).result = .error .mlflowError
    ∧ (run_experiment envT inpW).bundles = []
    ∧ (run_experiment envT inpW).pipeline_steps = []
    ∧ (run_experiment envT inpW).agg_kwargs = none
    ∧ (run_experiment envT inpW).run_calls = 0
    ∧ (run_experiment envT inpW).num_samples_tag = none :=
  tag_failure_aborts envT inpW "runs/exp" rfl rfl

/-- C8: `split_configs` does not mutate its inputs: run over an explicit
heap, the objects holding the input `model_config` and `dataset_config`
are unchanged after expansion (every key still bound to its original
value, candidate lists included). -/
theorem split_configs_no_mutation (s : Store) (mcRef dcRef : Nat)
    (hmc : mcRef < s.objs.length) (hdc : dcRef < s.objs.length) :
    (split_configs_heap s mcRef dcRef).1.read mcRef = s.read mcRef
    ∧ (split_configs_heap s mcRef dcRef).1.read dcRef = s.read dcRef :=
  ⟨read_eq_of_preservesBelow (split_configs_heap_frame s mcRef dcRef) hmc,
   read_eq_of_preservesBelow (split_configs_heap_frame s mcRef dcRef) hdc⟩

/-- Witness for C8 at a concrete two-object heap. -/
theorem split_configs_no_mutation_witness :
    (split_configs_heap storeW 0 1).1.read 0 = storeW.read 0
    ∧ (split_configs_heap storeW 0 1).1.read 1 = storeW.read 1 :=
  split_configs_no_mutation storeW 0 1 (by decide) (by decide)

/-- C9: only `model_config` is swept: every expanded pair carries the
input `dataset_config` unchanged, and every dispatched bundle receives
the same `train_hypers` and the same `dataset_config` as every other. -/
theorem sweep_only_model_config (env : Env) (inp : Inputs) :
    (∀ pr ∈ split_configs inp.model_config inp.dataset_config,
        pr.2 = inp.dataset_config)
    ∧ ∀ b ∈ (run_experiment env inp).bundles,
        b.train_hypers = inp.train_hypers
          ∧ b.dataset_config = inp.dataset_config := by
  refine ⟨fun pr h => split_configs_snd h, ?_⟩
  cases h0 : env.createDir 0 with
  | ok md =>
    rw [run_experiment_createDir0 inp h0]
    exact runWithDir_bundles_good env inp md 1 0
  | error e =>
    cases e
    cases h1 : env.createDir 1 with
    | ok md =>
      rw [run_experiment_retry inp h0 h1]
      exact runWithDir_bundles_good env inp md 2 1
    | error e2 =>
      cases e2
      rw [run_experiment_twoFailures inp h0 h1]
      intro b hb
      cases hb

/-- Witness for C9 at the concrete no-sweep input `inpZ`, whose single
dispatched bundle is `bW`. -/
theorem sweep_only_model_config_witness :
    bW.train_hypers = inpZ.train_hypers
      ∧ bW.dataset_config = inpZ.dataset_config :=
  (sweep_only_model_config envW inpZ).2 bW (by
    rw [show (run_experiment envW inpZ).bundles = [bW] from rfl]
    exact List.mem_singleton_self _)

/-- C2 counterexample: in pipeline mode the `input_dirs` given to the
aggregation invocation (the `run_aggregation` kwargs of lines 208-213) ARE
obtained by the unconditional `os.scandir` of line 206 — here the scan
returns a stale subdirectory and that is exactly what the invocation
receives, while the symbolic step-output references are `[0, 1]`. -/
theorem agg_kwargs_scan_counterexample :
    (run_experiment envS inpW).agg_kwargs
      = some { input_dirs := ["runs/exp/stale"], output_dir := "runs/exp",
               experiment_name := "boston.pvae" }
    ∧ (run_experiment envS inpW).train_step_outputs = [0, 1]
    ∧ envS.scanDirs = ["runs/exp/stale"]
    ∧ envS.pipelineMode = true :=
  ⟨rfl, rfl, rfl, rfl⟩

/-- C2 (amended): in pipeline mode the aggregation pipeline step's
declared `inputs` and its `--input_dirs` arguments are the symbolic
step-output references collected during dispatch; the aggregation
invocation's `input_dirs` kwarg, however, is obtained by scanning the
experiment output directory's subdirectories, a scan performed
unconditionally at graph-construction time. -/
theorem agg_step_symbolic_but_kwargs_scanned (env : Env) (inp : Inputs)
    (md : String) (hd : env.createDir 0 = .ok md)
    (ht0 : env.setTagsOk 0 = true) (ht1 : env.setTagsOk 1 = true)
    (hp : env.pipelineMode = true)
    (hkeys : (inp.model_config.map (fun p => p.1)).Nodup)
    (hmc : (dictGet inp.model_config "random_seed").isSome)
    (hdc : (dictGet inp.dataset_config "random_seed").isSome) :
    ∃ a : AggStep,
      (run_experiment env inp).pipeline_steps.getLast? = some (.aggStep a)
      ∧ a.inputs = (run_experiment env inp).train_step_outputs
      ∧ a.arguments
          = [.lit "--step", .lit "aggregation", .lit "--kwargs",
             .lit (env.kwargsFile
               (run_experiment env inp).train_step_outputs.length),
             .lit "--input_dirs"]
            ++ (run_experiment env inp).train_step_outputs.map .out
      ∧ (run_experiment env inp).agg_kwargs
          = some { input_dirs := env.scanDirs, output_dir := md,
                   experiment_name := expName inp } := by
  rcases run_experiment_pipeline_spec env inp md hd ht0 ht1 hp hkeys hmc hdc
    with ⟨acc, hg, hN, heq⟩
  have hkl : acc.kwargs_files.length = acc.bundles.length := by
    rw [hg.1]
    simp
  have htl : acc.train_step_outputs.length = acc.bundles.length := by
    rw [(hg.2.1 hp).1]
    simp
  rw [heq]
  dsimp only
  refine ⟨{ script_name := "run_experiment_step.py"
            arguments := [.lit "--step", .lit "aggregation", .lit "--kwargs",
                          .lit (env.kwargsFile acc.kwargs_files.length),
                          .lit "--input_dirs"]
                         ++ acc.train_step_outputs.map .out
            inputs := acc.train_step_outputs
            step_name := expName inp }, ?_, rfl, ?_, rfl⟩
  · simp [List.getLast?_concat]
  · rw [show acc.train_step_outputs.length = acc.kwargs_files.length from
      htl.trans hkl.symm]

/-- Witness for the amended C2 at the stale-scan environment. -/
theorem agg_step_symbolic_but_kwargs_scanned_witness :
    ∃ a : AggStep,
      (run_experiment envS inpW).pipeline_steps.getLast? = some (.aggStep a)
      ∧ a.inputs = (run_experiment envS inpW).train_step_outputs
      ∧ a.arguments
          = [.lit "--step", .lit "aggregation", .lit "--kwargs",
             .lit (envS.kwargsFile
               (run_experiment envS inpW).train_step_outputs.length),
             .lit "--input_dirs"]
            ++ (run_experiment envS inpW).train_step_outputs.map .out
      ∧ (run_experiment envS inpW).agg_kwargs
          = some { input_dirs := envS.scanDirs, output_dir := "runs/exp",
                   experiment_name := expName inpW } :=
  agg_step_symbolic_but_kwargs_scanned envS inpW "runs/exp" rfl rfl rfl rfl
    (by decide) (by decide) (by decide)

/-- C3: in pipeline mode the aggregation step is the last step added, and
its declared inputs are exactly the output references of all previously
registered run steps, one per expanded config, none omitted and none
added, for every number of expanded configs. -/
theorem aggregation_last_depends_on_all (env : Env) (inp : Inputs)
    (md : String) (hd : env.createDir 0 = .ok md)
    (ht0 : env.setTagsOk 0 = true) (ht1 : env.setTagsOk 1 = true)
    (hp : env.pipelineMode = true)
    (hkeys : (inp.model_config.map (fun p => p.1)).Nodup)
    (hmc : (dictGet inp.model_config "random_seed").isSome)
    (hdc : (dictGet inp.dataset_config "random_seed").isSome) :
    ∃ (runs : List RunStep) (a : AggStep),
      (run_experiment env inp).pipeline_steps
        = runs.map PStep.runStep ++ [PStep.aggStep a]
      ∧ a.inputs = (run_experiment env inp).train_step_outputs
      ∧ (run_experiment env inp).train_step_outputs = List.range runs.length
      ∧ runs.length
          = (split_configs inp.model_config inp.dataset_config).length := by
  rcases run_experiment_pipeline_spec env inp md hd ht0 ht1 hp hkeys hmc hdc
    with ⟨acc, hg, hN, heq⟩
  rw [heq]
  dsimp only
  refine ⟨(List.range acc.bundles.length).map (fun i =>
      { script_name := "run_experiment_step.py"
        arguments := [.lit "--step", .lit "single_seed_experiment",
                      .lit "--kwargs", .lit (env.kwargsFile i)]
        step_name := expName inp
        output_dir := "outputs" ++ natToString i }),
    { script_name := "run_experiment_step.py"
      arguments := [.lit "--step", .lit "aggregation", .lit "--kwargs",
                    .lit (env.kwargsFile acc.kwargs_files.length),
                    .lit "--input_dirs"]
                   ++ acc.train_step_outputs.map .out
      inputs := acc.train_step_outputs
      step_name := expName inp }, ?_, rfl, ?_, ?_⟩
  · rw [(hg.2.1 hp).2, List.map_map]
    rfl
  · rw [(hg.2.1 hp).1]
    simp
  · simp [hN]

/-- Witness for C3 at the concrete two-candidate sweep. -/
theorem aggregation_last_depends_on_all_witness :
    ∃ (runs : List RunStep) (a : AggStep),
      (run_experiment envW inpW).pipeline_steps
        = runs.map PStep.runStep ++ [PStep.aggStep a]
      ∧ a.inputs = (run_experiment envW inpW).train_step_outputs
      ∧ (run_experiment envW inpW).train_step_outputs = List.range runs.length
      ∧ runs.length
          = (split_configs inpW.model_config inpW.dataset_config).length :=
  aggregation_last_depends_on_all envW inpW "runs/exp" rfl rfl rfl rfl
    (by decide) (by decide) (by decide)

/-- C4: within one pipeline-mode invocation no two sibling run steps are
assigned the same output-directory name: the list of registered run-step
output directories (one per expanded config) is duplicate-free. -/
theorem run_output_dirs_unique (env : Env) (inp : Inputs)
    (md : String) (hd : env.createDir 0 = .ok md)
    (ht0 : env.setTagsOk 0 = true) (ht1 : env.setTagsOk 1 = true)
    (hp : env.pipelineMode = true)
    (hkeys : (inp.model_config.map (fun p => p.1)).Nodup)
    (hmc : (dictGet inp.model_config "random_seed").isSome)
    (hdc : (dictGet inp.dataset_config "random_seed").isSome) :
    (runOutputDirs (run_experiment env inp)).Nodup
    ∧ (runOutputDirs (run_experiment env inp)).length
        = (split_configs inp.model_config inp.dataset_config).length := by
  rcases run_experiment_pipeline_spec env inp md hd ht0 ht1 hp hkeys hmc hdc
    with ⟨acc, hg, hN, heq⟩
  rw [heq]
  have hout : runOutputDirs
      { create_calls := 1, sleeps := 0, models_dir := some md
        num_samples_tag :=
          some (split_configs inp.model_config inp.dataset_config).length
        bundles := acc.bundles
        kwargs_files := acc.kwargs_files
          ++ [env.kwargsFile acc.kwargs_files.length]
        pipeline_steps := acc.pipeline_steps ++
          [.aggStep
            { script_name := "run_experiment_step.py"
              arguments := [.lit "--step", .lit "aggregation", .lit "--kwargs",
                            .lit (env.kwargsFile acc.kwargs_files.length),
                            .lit "--input_dirs"]
                           ++ acc.train_step_outputs.map .out
              inputs := acc.train_step_outputs
              step_name := expName inp }]
        train_step_outputs := acc.train_step_outputs
        agg_kwargs := some { input_dirs := env.scanDirs, output_dir := md,
                             experiment_name := expName inp }
        run_calls := 1
        deleted := if env.deleteKwargsFiles then
            acc.kwargs_files ++ [env.kwargsFile acc.kwargs_files.length]
          else []
        result := .ok md }
      = (List.range acc.bundles.length).map
          (fun i => "outputs" ++ natToString i) := by
    simp only [runOutputDirs, (hg.2.1 hp).2, List.filterMap_append,
      List.filterMap_map]
    simp only [expectedRunStep, Function.comp_def, List.filterMap_cons,
      List.filterMap_nil, List.append_nil]
    exact filterMap_some_eq_map _ _
  rw [hout]
  constructor
  · exact (List.nodup_range _).map (fun a b h => outputsName_inj h)
  · simp [hN]

/-- Witness for C4 at the concrete two-candidate sweep. -/
theorem run_output_dirs_unique_witness :
    (runOutputDirs (run_experiment envW inpW)).Nodup
    ∧ (runOutputDirs (run_experiment envW inpW)).length
        = (split_configs inpW.model_config inpW.dataset_config).length :=
  run_output_dirs_unique envW inpW "runs/exp" rfl rfl rfl rfl
    (by decide) (by decide) (by decide)

/-- C5: in pipeline mode with N expanded configs the step graph contains
exactly N+1 steps, the trigger is invoked exactly once, and (with the
default cleanup flag) exactly N+1 descriptor files are deleted. -/
theorem pipeline_counts (env : Env) (inp : Inputs)
    (md : String) (hd : env.createDir 0 = .ok md)
    (ht0 : env.setTagsOk 0 = true) (ht1 : env.setTagsOk 1 = true)
    (hp : env.pipelineMode = true)
    (hkeys : (inp.model_config.map (fun p => p.1)).Nodup)
    (hmc : (dictGet inp.model_config "random_seed").isSome)
    (hdc : (dictGet inp.dataset_config "random_seed").isSome)
    (hdel : env.deleteKwargsFiles = true) :
    (run_experiment env inp).pipeline_steps.length
        = (split_configs inp.model_config inp.dataset_config).length + 1
    ∧ (run_experiment env inp).run_calls = 1
    ∧ (run_experiment env inp).deleted.length
        = (split_configs inp.model_config inp.dataset_config).length + 1 := by
  rcases run_experiment_pipeline_spec env inp md hd ht0 ht1 hp hkeys hmc hdc
    with ⟨acc, hg, hN, heq⟩
  have hkl : acc.kwargs_files.length = acc.bundles.length := by
    rw [hg.1]
    simp
  rw [heq]
  refine ⟨?_, rfl, ?_⟩
  · simp [(hg.2.1 hp).2, hN]
  · simp [hdel, hkl, hN]

/-- Witness for C5 at the three-candidate sweep: 4 steps, one trigger
call, 4 deleted descriptor files. -/
theorem pipeline_counts_witness :
    (run_experiment envW inp3).pipeline_steps.length = 4
    ∧ (run_experiment envW inp3).run_calls = 1
    ∧ (run_experiment envW inp3).deleted.length = 4 :=
  pipeline_counts envW inp3 "runs/exp" rfl rfl rfl rfl
    (by decide) (by decide) (by decide) rfl

/-- C10: when expansion yields zero configs, no run step is dispatched but
the aggregation stage is still constructed and submitted: the graph holds
only the aggregation step with an empty dependency set, the trigger is
still invoked once, and exactly one descriptor file is deleted. -/
theorem degenerate_sweep_aggregation_only (env : Env) (inp : Inputs)
    (md : String) (hd : env.createDir 0 = .ok md)
    (ht0 : env.setTagsOk 0 = true) (ht1 : env.setTagsOk 1 = true)
    (hp : env.pipelineMode = true) (hdel : env.deleteKwargsFiles = true)
    (hempty : split_configs inp.model_config inp.dataset_config = []) :
    (run_experiment env inp).bundles = []
    ∧ (∃ a : AggStep,
        (run_experiment env inp).pipeline_steps = [.aggStep a]
        ∧ a.inputs = [])
    ∧ (run_experiment env inp).agg_kwargs
        = some { input_dirs := env.scanDirs, output_dir := md,
                 experiment_name := expName inp }
    ∧ (run_experiment env inp).run_calls = 1
    ∧ (run_experiment env inp).deleted.length = 1 := by
  have hloop : dispatchLoop env inp md (expName inp)
      (split_configs inp.model_config inp.dataset_config) ⟨[], [], [], []⟩
      = (⟨[], [], [], []⟩, none) := by
    rw [hempty]
    rfl
  rw [run_experiment_createDir0 inp hd,
    runWithDir_pipeline_eq env inp md 1 0 ⟨[], [], [], []⟩ ht0 ht1 hloop hp]
  refine ⟨rfl, ⟨_, rfl, rfl⟩, rfl, rfl, ?_⟩
  simp [hdel]

/-- Witness for C10 at the empty-candidate sweep `inpE`. -/
theorem degenerate_sweep_aggregation_only_witness :
    (run_experiment envW inpE).bundles = []
    ∧ (∃ a : AggStep,
        (run_experiment envW inpE).pipeline_steps = [.aggStep a]
        ∧ a.inputs = [])
    ∧ (run_experiment envW inpE).agg_kwargs
        = some { input_dirs := envW.scanDirs, output_dir := "runs/exp",
                 experiment_name := expName inpE }
    ∧ (run_experiment envW inpE).run_calls = 1
    ∧ (run_experiment envW inpE).deleted.length = 1 :=
  degenerate_sweep_aggregation_only envW inpE "runs/exp" rfl rfl rfl rfl rfl
    rfl

end BayesDAG
